import Mathlib

/-!
Verification development for the PuttPuttPlanet build pipeline (`bin/build.js`).

The definitions below are a shallow embedding of the build script: each
definition is translated from the corresponding JavaScript function in
`bin/build.js` (line numbers cited in the doc comments).  JavaScript
`undefined` is modelled as `Option.none`, exceptions and promise rejection
as `Except`, and byte counts as `Nat`.
-/

/-! ## Statistics accumulator (`compressionStats`, build.js lines 27-33) -/

/-- The mutable `compressionStats` accumulator of build.js (lines 27-33),
restricted to its three numeric counters.  `startTime`/`endTime` are wall
clock values and are not modelled. -/
structure Totals where
  files : Nat
  bytesConsidered : Nat
  bytesCompressed : Nat
deriving DecidableEq, Repr

/-- Pointwise addition of two `Totals` deltas, as performed by the
`compressionStats.x += y` statements of build.js. -/
def Totals.add (a b : Totals) : Totals :=
  ⟨a.files + b.files, a.bytesConsidered + b.bytesConsidered,
   a.bytesCompressed + b.bytesCompressed⟩

/-- The all-zero delta. -/
def Totals.zero : Totals := ⟨0, 0, 0⟩

/-! ## Configuration resolution (build.js lines 36-249)

The `configuration` module variable (lines 36-75) starts from built-in
defaults; `updateConfiguration` (lines 219-249) merges the JSON
configuration file and the yargs command line arguments into it.
Only the fields that participate in the merge are modelled. -/

/-- The `configuration` record of build.js (lines 36-75), restricted to the
fields touched by configuration resolution.  `optimizeImages` is an
`Option Bool` because `getCommandLineArguments` (line 176) assigns it the
raw CLI value, which is JavaScript `undefined` (here `none`) when the
`--optimizeImages` flag was not passed. -/
structure Configuration where
  dryrun : Bool
  isLoggingInfo : Bool
  isLoggingError : Bool
  verbose : Bool
  optimizeImages : Option Bool
  logfile : Option String
  jsSource : String
  jsDestination : String
  imageSource : String
  imageDestination : String
  exclude : Option String
deriving DecidableEq, Repr

/-- The built-in default configuration of build.js (lines 36-75),
restricted to the modelled fields. -/
def defaultConfiguration : Configuration :=
  { dryrun := true
    isLoggingInfo := true
    isLoggingError := true
    verbose := true
    optimizeImages := some true
    logfile := none
    jsSource := "./public/js"
    jsDestination := "./distrib/js"
    imageSource := "./public/images"
    imageDestination := "./distrib/images"
    exclude := none }

/-- A bag of possibly-present configurable properties, as seen by
`matchProperties` (build.js lines 205-213): the JSON configuration file
data, or the yargs `argv` object projected to the nine configurable
property names.  A field is `none` exactly when `hasOwnProperty` is false
for it on the JavaScript object. -/
structure PropsSource where
  imageDestination : Option String := none
  jsDestination : Option String := none
  dryrun : Option Bool := none
  exclude : Option String := none
  logfile : Option String := none
  optimizeImages : Option Bool := none
  imageSource : Option String := none
  jsSource : Option String := none
  verbose : Option Bool := none
deriving DecidableEq, Repr

/-- `matchProperties` (build.js lines 205-213): for each of the nine
`configurableProperties`, copy the value onto `configuration` when the
source object has the property. -/
def matchProperties (c : Configuration) (p : PropsSource) : Configuration :=
  { c with
    imageDestination := p.imageDestination.getD c.imageDestination
    jsDestination := p.jsDestination.getD c.jsDestination
    dryrun := p.dryrun.getD c.dryrun
    exclude := match p.exclude with | some v => some v | none => c.exclude
    logfile := match p.logfile with | some v => some v | none => c.logfile
    optimizeImages :=
      match p.optimizeImages with | some v => some v | none => c.optimizeImages
    imageSource := p.imageSource.getD c.imageSource
    jsSource := p.jsSource.getD c.jsSource
    verbose := p.verbose.getD c.verbose }

/-- The yargs `argv` object produced by `getArgs` (build.js lines 100-169),
restricted to the declared options.  `config` and `verbose` carry yargs
defaults (`"./bin/build-config.json"` and `true`) and are therefore always
present on `argv`; every other declared option is absent (`none`) when it
was not passed on the command line. -/
structure CLIArgs where
  config : String := "./bin/build-config.json"
  imageDestination : Option String := none
  jsDestination : Option String := none
  logfile : Option String := none
  imageSource : Option String := none
  jsSource : Option String := none
  optimizeImages : Option Bool := none
  verbose : Bool := true
  exclude : Option String := none
  dryrun : Option Bool := none
deriving DecidableEq, Repr

/-- The view of the yargs `argv` object that `matchProperties` receives on
build.js line 235: property `p` is present iff `argv.hasOwnProperty(p)`.
`verbose` is always present because of its yargs default. -/
def cliProps (a : CLIArgs) : PropsSource :=
  { imageDestination := a.imageDestination
    jsDestination := a.jsDestination
    dryrun := a.dryrun
    exclude := a.exclude
    logfile := a.logfile
    optimizeImages := a.optimizeImages
    imageSource := a.imageSource
    jsSource := a.jsSource
    verbose := some a.verbose }

/-- `getCommandLineArguments` (build.js lines 174-180): unconditionally
assigns `configuration.optimizeImages = args.optimizeImages` (the raw CLI
value, `undefined` when the flag is absent), `configuration.isLoggingInfo =
args.verbose`, and `configuration.isLoggingError = true`. -/
def getCommandLineArguments (c : Configuration) (a : CLIArgs) : Configuration :=
  { c with
    optimizeImages := a.optimizeImages
    isLoggingInfo := a.verbose
    isLoggingError := true }

/-- `loadConfigurationData` (build.js lines 187-198): resolves with the
parsed JSON data, or with the empty object `{}` after logging when the
read/parse fails.  The argument is the outcome of `fsExtra.readJSON`. -/
def loadConfigurationData (r : Except String PropsSource) : PropsSource :=
  match r with
  | Except.ok data => data
  | Except.error _ => {}

/-- The state of the configuration file on disk: `none` when the file does
not exist (`fsExtra.pathExists` is false), otherwise the outcome of
reading and parsing it. -/
def ConfigFileState : Type := Option (Except String PropsSource)

/-- `updateConfiguration` (build.js lines 219-249): first
`getCommandLineArguments` mutates the defaults, then, when the
configuration file exists, its parsed data is merged via
`matchProperties`, and finally the CLI `argv` is merged via
`matchProperties`.  When the file does not exist only the CLI merge runs.
The promise always resolves (the `config` option's yargs default makes
`cliArgs.config != null` always true). -/
def updateConfiguration (a : CLIArgs) (fileState : ConfigFileState) : Configuration :=
  let c1 := getCommandLineArguments defaultConfiguration a
  match fileState with
  | some readResult =>
      matchProperties (matchProperties c1 (loadConfigurationData readResult)) (cliProps a)
  | none => matchProperties c1 (cliProps a)

/-- Modelled from the spec: "continues with defaults merged with CLI flags"
(spec section 4.1) — the configuration the spec says resolution completes
with when the file is missing or malformed: the built-in defaults with the
present CLI properties merged on top. -/
def specDefaultsMergedWithCLI (a : CLIArgs) : Configuration :=
  matchProperties defaultConfiguration (cliProps a)

/-! ## Orchestrator (`runBuild` and `showStats`, build.js lines 638-665) -/

/-- The settlement of one category processor's overall promise. -/
inductive ProcResult where
  | resolved
  | rejected (msg : String)
deriving DecidableEq, Repr

/-- What the orchestrator observably did after all processors settled. -/
structure OrchestratorOutcome where
  statsShown : Bool
  failureLogged : Bool
deriving DecidableEq, Repr

/-- `Promise.all` semantics over the processor settlements: `none` when all
resolved, otherwise the message of the first rejection in list order. -/
def promiseAllFirstError : List ProcResult → Option String
  | [] => none
  | ProcResult.resolved :: rest => promiseAllFirstError rest
  | ProcResult.rejected m :: _ => some m

/-- `runBuild` (build.js lines 652-665): `Promise.all` over the processors,
`.then` calls `showStats` (lines 638-644), `.catch` only calls `logError`
(line 663) — it does not call `showStats`. -/
def runBuild (rs : List ProcResult) : OrchestratorOutcome :=
  match promiseAllFirstError rs with
  | none => { statsShown := true, failureLogged := false }
  | some _ => { statsShown := false, failureLogged := true }

/-! ## JavaScript division (for `showStats` line 642 and
`optimizeImages` line 311) -/

/-- A JavaScript number as produced by the ratio computations of build.js:
either a finite value or one of the IEEE non-finite results of dividing by
zero. -/
inductive JSNum where
  | num (q : ℚ)
  | nan
  | posInf
  | negInf
deriving DecidableEq, Repr

/-- JavaScript division `a / b` (IEEE semantics on the cases reachable
here): division by zero gives `NaN` for `0 / 0` and a signed infinity
otherwise. -/
def jsDiv (a b : ℚ) : JSNum :=
  if b = 0 then
    if a = 0 then JSNum.nan
    else if 0 < a then JSNum.posInf
    else JSNum.negInf
  else JSNum.num (a / b)

/-- Multiplication by the positive literal `100` as applied to the ratio:
`NaN` and the infinities are preserved. -/
def JSNum.mul100 : JSNum → JSNum
  | JSNum.num q => JSNum.num (q * 100)
  | x => x

/-- Whether a JavaScript number is finite. -/
def JSNum.isFinite : JSNum → Bool
  | JSNum.num _ => true
  | _ => false

/-- The `bytesRatio` computation of `showStats` (build.js lines 641-642):
`((totalBytesConsidered - totalBytesCompressed) / totalBytesConsidered) *
100`, with no guard for a zero denominator. -/
def showStatsBytesRatio (considered compressed : Nat) : JSNum :=
  (jsDiv ((considered : ℚ) - (compressed : ℚ)) (considered : ℚ)).mul100

/-- The `percentSaved` computation of `optimizeImages` (build.js line 311):
`totalBytesConsidered == 0 ? 0 : ((totalSaved / totalBytesConsidered) *
100).toFixed() + "%"` — the zero case substitutes the number `0` (only the
numeric value is modelled; the non-zero branch is additionally
stringified). -/
def percentSavedGuarded (totalSaved totalBytesConsidered : ℚ) : JSNum :=
  if totalBytesConsidered = 0 then JSNum.num 0
  else (jsDiv totalSaved totalBytesConsidered).mul100

/-! ## Image optimization (`optimizeImages`, build.js lines 258-317)

Per file, the eachLimit iteratee (lines 268-301) awaits `ImageMin`,
*initiates* `fsExtra.stat(file, cb)` and then immediately invokes the
iteratee callback `callback(null)` (line 300) — it does not wait for the
stat callback, which updates the local accumulators (lines 289-291).  The
eachLimit completion handler (lines 302-315) therefore runs as the direct
continuation of the last iteratee callback, before that file's pending
stat callback, and adds whatever the local accumulators hold at that
moment to `compressionStats` (lines 303-305).

The model below instantiates the concurrency limit at 1 (a single-CPU
host, `numberOfCPUs = 1`) so the trace is deterministic, and uses the
event-loop ordering most favourable to the code: every pending stat
callback runs during the *next* file's `ImageMin` await.  Even so, the
stat callback of the final file necessarily runs after the completion
handler. -/

/-- One image file as the iteratee observes it: the outcome of
`fsExtra.stat` (the size on success) and the length of the `ImageMin`
output data (line 286). -/
structure ImageFile where
  stat : Except String Nat
  optimizedSize : Nat
deriving Repr

/-- The contribution one file's stat callback makes to the local
accumulators (build.js lines 281-299): nothing on a stat error (only
`logError`), otherwise one file, the original size and the optimized
size. -/
def imageContribution (f : ImageFile) : Totals :=
  match f.stat with
  | Except.error _ => Totals.zero
  | Except.ok size => ⟨1, size, f.optimizedSize⟩

/-- Drain a queue of pending stat callbacks into the local accumulators. -/
def drainPending (pending : List ImageFile) (locals : Totals) : Totals :=
  pending.foldl (fun t f => t.add (imageContribution f)) locals

/-- The event trace of `optimizeImages`'s eachLimit loop with limit 1:
state is (files still to process, pending stat callbacks, local
accumulators).  Each iteration first yields at the `ImageMin` await
(running the pending stat callbacks), then initiates the file's stat
(enqueueing its callback) and fires the iteratee callback.  Returns the
local accumulators and the still-pending stat callbacks at the moment the
completion handler runs. -/
def optImagesLoop : List ImageFile → List ImageFile → Totals → Totals × List ImageFile
  | [], pending, locals => (locals, pending)
  | f :: rest, pending, locals => optImagesLoop rest [f] (drainPending pending locals)

/-- The observable outcome of one `optimizeImages` batch. -/
structure ImageRunResult where
  /-- The delta added to `compressionStats` by the completion handler
  (build.js lines 303-305). -/
  batchDelta : Totals
  /-- The local accumulators after every stat callback eventually ran. -/
  finalLocals : Totals
  /-- How many iteratee callbacks fired (always all of them, each with
  `null`, line 300). -/
  iterCallbacks : Nat
  /-- The settlement of the returned promise (line 313: always resolves,
  since no iteratee callback ever carries an error). -/
  result : Except String Unit
deriving Repr

/-- `optimizeImages` (build.js lines 258-317) under the trace model
described above. -/
def optimizeImagesRun (files : List ImageFile) : ImageRunResult :=
  let state := optImagesLoop files [] Totals.zero
  { batchDelta := state.1
    finalLocals := drainPending state.2 state.1
    iterCallbacks := files.length
    result := Except.ok () }

/-- The sum of the per-file contributions of a whole batch. -/
def imageBatchSum (files : List ImageFile) : Totals :=
  (files.map imageContribution).foldl Totals.add Totals.zero

/-! ## Plain image copy (`copyImages`, build.js lines 326-369)

Unlike `optimizeImages`, the iteratee of `copyImages` fires its callback
*inside* the stat callback, and on a stat error passes the error to the
callback (line 342), which makes `async.eachLimit` stop launching further
items and invoke the completion handler with the error, rejecting the
promise (line 362).  The completion handler still adds the local
accumulators gathered so far (lines 357-359).  The model again
instantiates the concurrency limit at 1 (sequential processing). -/

/-- The observable outcome of one `copyImages` batch. -/
structure CopyRunResult where
  /-- The delta added to `compressionStats` by the completion handler
  (build.js lines 357-359) — added whether or not the batch errored. -/
  totals : Totals
  /-- Files whose stat callback ran. -/
  statted : Nat
  /-- Files actually copied (line 348). -/
  copied : Nat
  /-- Settlement of the returned promise: rejects on the first per-file
  stat error (lines 342, 362). -/
  result : Except String Unit
deriving Repr

/-- `copyImages` (build.js lines 326-369) with concurrency limit 1: files
are processed in order; the first stat error stops the batch.  Each
successful file adds its original size to both byte counters (lines
350-352). -/
def copyImagesRun : List (Except String Nat) → CopyRunResult
  | [] => ⟨Totals.zero, 0, 0, Except.ok ()⟩
  | Except.error e :: _ => ⟨Totals.zero, 1, 0, Except.error e⟩
  | Except.ok size :: rest =>
      let r := copyImagesRun rest
      ⟨⟨r.totals.files + 1, r.totals.bytesConsidered + size,
        r.totals.bytesCompressed + size⟩,
       r.statted + 1, r.copied + 1, r.result⟩

/-- The contribution of a list of successful stat results, one file and its
size to both byte counters each (build.js lines 349-352). -/
def copyOkSum (sizes : List Nat) : Totals :=
  sizes.foldr (fun size t =>
    ⟨t.files + 1, t.bytesConsidered + size, t.bytesCompressed + size⟩) Totals.zero

/-! ## Script processor (`optimizeJS`, build.js lines 453-532)

`optimizeJS` returns a promise whose executor synchronously loops over the
page-manifest groups: per group it derives the output name from the last
listed file (`path.parse(...).name + ".min.js"`, lines 522-523), reads
every member file via `prepareJSFile` (lines 471-488, synchronous
`readFileSync` with no try/catch — a read exception escapes the executor
and rejects the promise), then *fires and forgets* the async
`completeJSCompression` (line 528) and finally resolves (line 530).  The
minification and the output write therefore happen after the promise has
already resolved, and a minify exception is caught and only logged (lines
513-515). -/

/-- `path.basename`: the part of the path after the final separator. -/
def baseName (p : String) : String :=
  String.mk (p.data.foldl (fun acc ch => if ch = '/' then [] else acc ++ [ch]) [])

/-- `path.parse(p).name`: the base name with its final extension removed
(a leading-dot-only base such as `".hidden"` keeps its dot, matching
Node's parser). -/
def parseName (p : String) : String :=
  let b := (baseName p).data
  let r := b.reverse
  match r.findIdx? (fun ch => ch = '.') with
  | none => String.mk b
  | some i =>
      if i = r.length - 1 then String.mk b
      else String.mk ((r.drop (i + 1)).reverse)

/-- `path.join` restricted to the shapes used here: a directory and a
relative file name. -/
def pathJoin (dir file : String) : String :=
  dir ++ "/" ++ file

/-- The file system a read goes to: `none` means `readFileSync` throws
(for example the file does not exist), `some c` that it returns the
contents `c`. -/
def FileSystem : Type := String → Option String

/-- The accumulator that one manifest group builds up: the
`compressionStats` deltas from `prepareJSFile` and the named-entry
`terserCode` map (keyed by base name, in insertion order). -/
structure PrepAcc where
  statsFiles : Nat := 0
  statsBytesConsidered : Nat := 0
  terserCode : List (String × String) := []
deriving Repr

/-- `prepareJSFile` (build.js lines 471-488): skip the file when its base
name appears in `jsFilesToIgnore`; otherwise read it (`readFileSync`, an
exception rejects); a non-empty read counts one file and its byte length
into `compressionStats` and adds the entry to the `terserCode` map; an
empty or null read is only logged. -/
def prepareJSFile (jsSource : String) (jsFilesToIgnore : List String)
    (fs : FileSystem) (file : String) (acc : PrepAcc) : Except String PrepAcc :=
  let fileName := baseName file
  if fileName ∈ jsFilesToIgnore then Except.ok acc
  else
    match fs (pathJoin jsSource file) with
    | none => Except.error ("ENOENT: no such file " ++ pathJoin jsSource file)
    | some contents =>
        if 0 < contents.length then
          Except.ok ⟨acc.statsFiles + 1,
                     acc.statsBytesConsidered + contents.utf8ByteSize,
                     acc.terserCode ++ [(fileName, contents)]⟩
        else Except.ok acc

/-- One deferred `completeJSCompression` job as it exists at the moment
`optimizeJS` resolves: the output package name and the `terserCode` map to
minify. -/
structure JSJob where
  packageName : String
  terserCode : List (String × String)
deriving Repr

/-- What `optimizeJS` has done by the time it resolves: the deferred
minification jobs and the `compressionStats` deltas already applied by
`prepareJSFile` (no compressed bytes yet, no file written yet). -/
structure JSPhase1Result where
  jobs : List JSJob
  statsFilesDelta : Nat
  statsBytesConsideredDelta : Nat
deriving Repr

/-- Process one manifest group (build.js lines 520-528): derive the
package name from the last listed file (`path.parse` of `undefined`
throws on an empty list, rejecting), run `prepareJSFile` over the members
in order, and enqueue the `completeJSCompression` job. -/
def processGroup (jsSource : String) (jsFilesToIgnore : List String)
    (fs : FileSystem) (fileList : List String) (acc : JSPhase1Result) :
    Except String JSPhase1Result :=
  match fileList.getLast? with
  | none => Except.error "TypeError: path.parse of undefined"
  | some lastFile =>
      let packageName := parseName lastFile ++ ".min.js"
      (fileList.foldlM (fun a file =>
          prepareJSFile jsSource jsFilesToIgnore fs file a) ({} : PrepAcc)).map
        (fun prep =>
          ⟨acc.jobs ++ [⟨packageName, prep.terserCode⟩],
           acc.statsFilesDelta + prep.statsFiles,
           acc.statsBytesConsideredDelta + prep.statsBytesConsidered⟩)

/-- The synchronous phase of `optimizeJS` (build.js lines 518-531), up to
and including the `resolve()` call: an `Except.error` means the executor
threw and the promise rejected; `Except.ok` means the promise resolved,
carrying the deferred jobs. -/
def optimizeJSPhase1 (jsSource jsDestination : String)
    (jsFilesToIgnore : List String) (pageManifest : List (String × List String))
    (fs : FileSystem) : Except String JSPhase1Result :=
  let _ := jsDestination
  pageManifest.foldlM
    (fun acc group => processGroup jsSource jsFilesToIgnore fs group.2 acc)
    ⟨[], 0, 0⟩

/-- The minifier (`terser.minify`) as an oracle: `none` when minification
throws or returns a null `code` (the catch/else branches of
`completeJSCompression`, build.js lines 510-515), `some code` on
success. -/
def MinifyOracle : Type := List (String × String) → Option String

/-- One deferred `completeJSCompression` run (build.js lines 490-516):
on minify success the output file is written and its byte length added to
`compressionStats.totalBytesCompressed`; on failure nothing is written and
nothing added (the exception is caught and logged). -/
def runJSJob (jsDestination : String) (minify : MinifyOracle) (job : JSJob) :
    List String × Nat :=
  match minify job.terserCode with
  | none => ([], 0)
  | some code => ([pathJoin jsDestination job.packageName], code.utf8ByteSize)

/-- The full observable behaviour of one `optimizeJS` call: the settlement
of its promise (decided by phase 1 alone) and the writes and compressed
bytes its deferred jobs eventually produce. -/
structure JSRunTrace where
  phase1 : Except String JSPhase1Result
  writes : List String
  compressedDelta : Nat
deriving Repr

/-- `optimizeJS` (build.js lines 453-532) end to end: phase 1 settles the
promise; when it resolved, the deferred jobs then run in order. -/
def optimizeJSRun (jsSource jsDestination : String)
    (jsFilesToIgnore : List String) (pageManifest : List (String × List String))
    (fs : FileSystem) (minify : MinifyOracle) : JSRunTrace :=
  match optimizeJSPhase1 jsSource jsDestination jsFilesToIgnore pageManifest fs with
  | Except.error e => ⟨Except.error e, [], 0⟩
  | Except.ok r =>
      let outcomes := r.jobs.map (runJSJob jsDestination minify)
      ⟨Except.ok r, (outcomes.map Prod.fst).flatten,
       (outcomes.map Prod.snd).foldl (· + ·) 0⟩

/-! ## Bounded-concurrency runner (`async.eachLimit`, used at build.js
lines 268, 336, 390 with limit `numberOfCPUs`, line 26)

`numberOfCPUs = os.cpus().length` is an environment value fixed at process
start; the runner itself lives in the `async` package, outside this
repository.  Modelled from the spec: "run at most N concurrent
invocations, where N = number of logical CPUs detected at startup
(minimum 1).  Must not start item N+1's processing until at least one of
the first N has completed" (spec section 4.3) — as a small-step system:
items are started strictly in list order, a new item may start only while
fewer than N items are in flight, and an in-flight item may complete at
any time. -/

/-- A runner state: `next` is the index of the next item to start (so
items `0 .. next-1` have been started), `inFlight` the started-but-not-
completed items, `done` the completed ones. -/
structure RunnerState where
  next : Nat
  inFlight : Finset Nat
  done : Finset Nat
deriving DecidableEq

/-- One scheduler step of the bounded runner with limit `N` over `total`
items: either start the next item (only while fewer than `N` are in
flight) or complete an in-flight item. -/
inductive RunnerStep (N total : Nat) : RunnerState → RunnerState → Prop where
  | start (s : RunnerState) (hnext : s.next < total) (hcap : s.inFlight.card < N) :
      RunnerStep N total s ⟨s.next + 1, insert s.next s.inFlight, s.done⟩
  | finish (s : RunnerState) (i : Nat) (hmem : i ∈ s.inFlight) :
      RunnerStep N total s ⟨s.next, s.inFlight.erase i, insert i s.done⟩

/-- The initial runner state: nothing started. -/
def runnerInit : RunnerState := ⟨0, ∅, ∅⟩

/-- The states the runner can be in during a batch of `total` items with
limit `N`. -/
def RunnerReachable (N total : Nat) (s : RunnerState) : Prop :=
  Relation.ReflTransGen (RunnerStep N total) runnerInit s

/-- The runner invariant: the in-flight set respects the cap, the
started items are exactly `0 .. next-1` split between in-flight and done,
and whenever item `N` (the `N+1`-st item) has been started, some earlier
item had already completed. -/
def RunnerInv (N : Nat) (s : RunnerState) : Prop :=
  s.inFlight.card ≤ N ∧
  s.inFlight ∪ s.done = Finset.range s.next ∧
  Disjoint s.inFlight s.done ∧
  (N < s.next → ∃ i, i < N ∧ i ∈ s.done)

/-! ## Auxiliary definitions used by the claim statements -/

/-- A concrete reachable state of a 2-item batch with limit 1: item 0
started and finished, then item 1 started. -/
def runnerDemoState : RunnerState :=
  ⟨2, insert 1 ((insert 0 (∅ : Finset Nat)).erase 0), insert 0 ∅⟩

/-- The `compressionStats.totalFiles` delta applied by the time
`optimizeJS` settles (`0` when the promise rejected). -/
def phase1FilesDelta (r : Except String JSPhase1Result) : Nat :=
  match r with
  | Except.ok v => v.statsFilesDelta
  | Except.error _ => 0

/-- The output package names of the deferred bundle jobs at the time
`optimizeJS` settles. -/
def phase1JobNames (r : Except String JSPhase1Result) : List String :=
  match r with
  | Except.ok v => v.jobs.map JSJob.packageName
  | Except.error _ => []

/-- A concrete file system holding three non-empty script files. -/
def demoFS : FileSystem := fun p =>
  if p = "./public/js/common.js" then some "var a = 1;"
  else if p = "./public/js/index.js" then some "var b = 2;"
  else if p = "./public/js/about.js" then some "var c = 3;"
  else none

/-- A concrete minify oracle that concatenates the entry contents. -/
def demoMinify : MinifyOracle := fun code =>
  some (code.foldl (fun acc e => acc ++ e.2) "")

/-- A file system on which every read throws. -/
def missingFS : FileSystem := fun _ => none

/-! ## Runner invariant proofs (claim C1) -/

/-- The initial state satisfies the runner invariant. -/
theorem runnerInv_init (N : Nat) : RunnerInv N runnerInit := by
  refine ⟨by simp [runnerInit], by simp [runnerInit], by simp [runnerInit], ?_⟩
  intro h
  simp [runnerInit] at h

/-- Every scheduler step preserves the runner invariant. -/
theorem runnerInv_step (N total : Nat) (s t : RunnerState)
    (hstep : RunnerStep N total s t) (hinv : RunnerInv N s) : RunnerInv N t := by
  obtain ⟨hcard, hunion, hdisj, hQ⟩ := hinv
  cases hstep with
  | start hnext hcap =>
    have hnotinF : s.next ∉ s.inFlight := by
      intro hmem
      have h1 : s.next ∈ s.inFlight ∪ s.done := Finset.mem_union_left _ hmem
      rw [hunion] at h1
      exact absurd (Finset.mem_range.mp h1) (lt_irrefl _)
    have hnotinD : s.next ∉ s.done := by
      intro hmem
      have h1 : s.next ∈ s.inFlight ∪ s.done := Finset.mem_union_right _ hmem
      rw [hunion] at h1
      exact absurd (Finset.mem_range.mp h1) (lt_irrefl _)
    refine ⟨?_, ?_, ?_, ?_⟩
    · show (insert s.next s.inFlight).card ≤ N
      rw [Finset.card_insert_of_not_mem hnotinF]
      omega
    · show insert s.next s.inFlight ∪ s.done = Finset.range (s.next + 1)
      rw [Finset.insert_union, hunion, Finset.range_succ]
    · show Disjoint (insert s.next s.inFlight) s.done
      rw [Finset.disjoint_insert_left]
      exact ⟨hnotinD, hdisj⟩
    · show N < s.next + 1 → ∃ i, i < N ∧ i ∈ s.done
      intro h
      by_cases hlt : N < s.next
      · exact hQ hlt
      · have hEq : N = s.next := by omega
        have hcards : s.inFlight.card + s.done.card = s.next := by
          rw [← Finset.card_union_of_disjoint hdisj, hunion, Finset.card_range]
        have hpos : 0 < s.done.card := by omega
        obtain ⟨d, hd⟩ := Finset.card_pos.mp hpos
        have hdrange : d ∈ Finset.range s.next := by
          rw [← hunion]
          exact Finset.mem_union_right _ hd
        exact ⟨d, by rw [hEq]; exact Finset.mem_range.mp hdrange, hd⟩
  | finish i hmem =>
    have hiD : i ∉ s.done := Finset.disjoint_left.mp hdisj hmem
    refine ⟨?_, ?_, ?_, ?_⟩
    · show (s.inFlight.erase i).card ≤ N
      exact le_trans Finset.card_erase_le hcard
    · show s.inFlight.erase i ∪ insert i s.done = Finset.range s.next
      calc s.inFlight.erase i ∪ insert i s.done
          = insert i (s.inFlight.erase i ∪ s.done) := Finset.union_insert _ _ _
        _ = insert i (s.inFlight.erase i) ∪ s.done := (Finset.insert_union _ _ _).symm
        _ = s.inFlight ∪ s.done := by rw [Finset.insert_erase hmem]
        _ = Finset.range s.next := hunion
    · show Disjoint (s.inFlight.erase i) (insert i s.done)
      rw [Finset.disjoint_insert_right]
      exact ⟨Finset.not_mem_erase _ _,
             Finset.disjoint_of_subset_left (Finset.erase_subset _ _) hdisj⟩
    · show N < s.next → ∃ j, j < N ∧ j ∈ insert i s.done
      intro h
      obtain ⟨j, hj, hjD⟩ := hQ h
      exact ⟨j, hj, Finset.mem_insert_of_mem hjD⟩

/-- Every reachable state satisfies the runner invariant. -/
theorem runnerInv_reachable (N total : Nat) (s : RunnerState)
    (h : RunnerReachable N total s) : RunnerInv N s := by
  induction h with
  | refl => exact runnerInv_init N
  | tail hpre hstep ih => exact runnerInv_step N total _ _ hstep ih

/-- C1: for every item list and per-item task run through the
bounded-concurrency runner with limit `N` (the logical CPU count detected
at process start, at least 1), every reachable state of a batch has at
most `N` items in flight, and whenever item `N+1` (index `N`) has been
started, at least one of the first `N` items had already completed. -/
theorem claim1_runner_bounded (N total : Nat) (_hN : 1 ≤ N) (s : RunnerState)
    (h : RunnerReachable N total s) :
    s.inFlight.card ≤ N ∧ (N < s.next → ∃ i, i < N ∧ i ∈ s.done) := by
  obtain ⟨h1, _, _, h4⟩ := runnerInv_reachable N total s h
  exact ⟨h1, h4⟩

/-- Witness for C1 at `N = 1`, `total = 2` and the demo state above. -/
theorem claim1_runner_bounded_witness :
    1 ≤ 1 ∧ (runnerDemoState.inFlight.card ≤ 1 ∧
      (1 < runnerDemoState.next → ∃ i, i < 1 ∧ i ∈ runnerDemoState.done)) := by
  refine ⟨by decide, claim1_runner_bounded 1 2 (by decide) runnerDemoState ?_⟩
  have h1 : RunnerStep 1 2 runnerInit ⟨1, insert 0 (∅ : Finset Nat), ∅⟩ :=
    RunnerStep.start runnerInit (by decide) (by decide)
  have h2 : RunnerStep 1 2 ⟨1, insert 0 (∅ : Finset Nat), ∅⟩
      ⟨1, (insert 0 (∅ : Finset Nat)).erase 0, insert 0 ∅⟩ :=
    RunnerStep.finish ⟨1, insert 0 (∅ : Finset Nat), ∅⟩ 0 (by decide)
  have h3 : RunnerStep 1 2 ⟨1, (insert 0 (∅ : Finset Nat)).erase 0, insert 0 ∅⟩
      runnerDemoState :=
    RunnerStep.start ⟨1, (insert 0 (∅ : Finset Nat)).erase 0, insert 0 ∅⟩
      (by decide) (by decide)
  exact Relation.ReflTransGen.tail
    (Relation.ReflTransGen.tail (Relation.ReflTransGen.single h1) h2) h3

/-! ## Claim C2: aggregate totals versus per-file contributions -/

/-- C2 (code bug): evaluating `optimizeImages` at concrete batches.  For a
one-file batch (size 100, optimized to 80) the completion handler adds
zero files and zero bytes to `compressionStats`, while the per-file sum is
⟨1, 100, 80⟩ — the file's stat callback runs only after the completion
handler, because build.js line 300 invokes the iteratee callback right
after *initiating* the stat.  For a two-file batch only the first file is
counted. -/
theorem claim2_batch_total_drops_last_file :
    (optimizeImagesRun [⟨Except.ok 100, 80⟩]).batchDelta = Totals.zero ∧
    (optimizeImagesRun [⟨Except.ok 100, 80⟩]).finalLocals = ⟨1, 100, 80⟩ ∧
    imageBatchSum [⟨Except.ok 100, 80⟩] = ⟨1, 100, 80⟩ ∧
    (optimizeImagesRun [⟨Except.ok 100, 80⟩, ⟨Except.ok 50, 40⟩]).batchDelta =
      ⟨1, 100, 80⟩ ∧
    imageBatchSum [⟨Except.ok 100, 80⟩, ⟨Except.ok 50, 40⟩] = ⟨2, 150, 120⟩ :=
  ⟨rfl, rfl, rfl, rfl, rfl⟩

/-! ## Claim C3: configuration precedence -/

/-- C3 (code bug): with no config file and no CLI flags the resolved
`optimizeImages` is `undefined` (`none`), not the default `true`, because
`getCommandLineArguments` (build.js line 176) unconditionally overwrites
it with the absent CLI value; `jsDestination` does keep its default, and a
config file setting `optimizeImages = false` with no CLI flag does resolve
to `false`. -/
theorem claim3_default_clobbered :
    (updateConfiguration {} none).optimizeImages = none ∧
    defaultConfiguration.optimizeImages = some true ∧
    (updateConfiguration {} none).jsDestination = "./distrib/js" ∧
    (updateConfiguration {}
      (some (Except.ok { optimizeImages := some false }))).optimizeImages =
      some false :=
  ⟨rfl, rfl, rfl, rfl⟩

/-! ## Claim C5: orchestrator behaviour on processor rejection -/

/-- C5 (counterexample): when a processor's promise rejects, `runBuild`
(build.js lines 652-665) logs the failure but does *not* print the final
statistics summary — `showStats` is only called in the `.then` branch. -/
theorem claim5_stats_not_shown_on_rejection :
    (runBuild [ProcResult.rejected "optimizeImages process error",
      ProcResult.resolved, ProcResult.resolved]).failureLogged = true ∧
    (runBuild [ProcResult.rejected "optimizeImages process error",
      ProcResult.resolved, ProcResult.resolved]).statsShown = false :=
  ⟨rfl, rfl⟩

/-- C5 (amended): if any category processor's overall promise rejects, the
orchestrator logs the failure and does not print the final statistics
summary. -/
theorem claim5_rejection_skips_summary (rs : List ProcResult)
    (h : ∃ m, ProcResult.rejected m ∈ rs) :
    (runBuild rs).failureLogged = true ∧ (runBuild rs).statsShown = false := by
  obtain ⟨m, hm⟩ := h
  have hsome : (promiseAllFirstError rs).isSome = true := by
    induction rs with
    | nil => simp at hm
    | cons r rest ih =>
      cases r with
      | resolved =>
        have : ProcResult.rejected m ∈ rest := by
          rcases List.mem_cons.mp hm with h1 | h2
          · exact absurd h1 (by simp)
          · exact h2
        simpa [promiseAllFirstError] using ih this
      | rejected m2 => simp [promiseAllFirstError]
  obtain ⟨m2, hm2⟩ := Option.isSome_iff_exists.mp hsome
  simp [runBuild, hm2]

/-- Witness for C5 (amended) at a concrete rejection. -/
theorem claim5_rejection_skips_summary_witness :
    (runBuild [ProcResult.rejected "copyImages process error"]).failureLogged = true ∧
    (runBuild [ProcResult.rejected "copyImages process error"]).statsShown = false :=
  claim5_rejection_skips_summary _ ⟨"copyImages process error", by simp⟩

/-! ## Claim C7: fail-soft configuration loading -/

/-- C7 (counterexample): with the config file missing and no CLI flags the
resolution result differs from "built-in defaults merged with the CLI
flags" — `optimizeImages` has been clobbered to `undefined`. -/
theorem claim7_not_defaults_merged :
    (updateConfiguration {} none).optimizeImages ≠
      (specDefaultsMergedWithCLI {}).optimizeImages := by
  decide

/-- C7 (amended): a missing or unparseable configuration file never makes
resolution reject: a malformed file behaves exactly like a missing one,
and the result is the defaults merged with the present CLI properties —
except that `optimizeImages` is unconditionally the raw CLI value
(`undefined` when the flag is absent) and `isLoggingInfo` is the CLI
`verbose` value. -/
theorem claim7_fails_soft (a : CLIArgs) (e : String) :
    updateConfiguration a (some (Except.error e)) = updateConfiguration a none ∧
    (updateConfiguration a none).optimizeImages = a.optimizeImages ∧
    (updateConfiguration a none).isLoggingInfo = a.verbose ∧
    (updateConfiguration a none).isLoggingError = true ∧
    (updateConfiguration a none).verbose = a.verbose ∧
    (updateConfiguration a none).jsDestination =
      a.jsDestination.getD defaultConfiguration.jsDestination ∧
    (updateConfiguration a none).imageSource =
      a.imageSource.getD defaultConfiguration.imageSource ∧
    (updateConfiguration a none).dryrun =
      a.dryrun.getD defaultConfiguration.dryrun := by
  refine ⟨rfl, ?_, rfl, rfl, rfl, rfl, rfl, rfl⟩
  simp only [updateConfiguration, getCommandLineArguments, matchProperties, cliProps]
  cases ha : a.optimizeImages with
  | none => simp [ha]
  | some b => simp [ha]

/-! ## Claim C9: plain copy contributes zero savings -/

/-- C9: in plain-copy image mode every successfully copied file adds its
size to both `totalBytesConsidered` and `totalBytesCompressed` (build.js
lines 350-352), so a `copyImages` batch always contributes exactly zero
byte savings. -/
theorem claim9_copy_zero_savings (gs : List (Except String Nat)) :
    (copyImagesRun gs).totals.bytesConsidered =
      (copyImagesRun gs).totals.bytesCompressed := by
  induction gs with
  | nil => rfl
  | cons g rest ih =>
    cases g with
    | error e => rfl
    | ok s => simp [copyImagesRun, ih]

/-! ## Claim C10: unguarded percent-saved division in `showStats` -/

/-- C10: `showStats` (build.js line 642) divides by
`totalBytesConsidered` with no zero guard, so a run that considered zero
bytes produces a non-finite ratio (`NaN` when nothing was compressed
either), while the per-processor summary of `optimizeImages` (line 311)
substitutes 0 when its considered total is zero. -/
theorem claim10_unguarded_ratio (compressed : Nat) (saved : ℚ) :
    (showStatsBytesRatio 0 compressed).isFinite = false ∧
    showStatsBytesRatio 0 0 = JSNum.nan ∧
    percentSavedGuarded saved 0 = JSNum.num 0 := by
  refine ⟨?_, by simp [showStatsBytesRatio, jsDiv, JSNum.mul100],
    by simp [percentSavedGuarded]⟩
  have h0 : (0 : ℚ) ≤ (compressed : ℚ) := Nat.cast_nonneg _
  by_cases h : (compressed : ℚ) = 0
  · simp [showStatsBytesRatio, jsDiv, h, JSNum.mul100, JSNum.isFinite]
  · have hneg : ¬(0 < -(compressed : ℚ)) := by intro hc; linarith
    simp [showStatsBytesRatio, jsDiv, h, hneg, JSNum.mul100, JSNum.isFinite]

/-! ## Claim C4: per-file error handling in the image processors -/

/-- Draining the completion-time pending queue on top of the
completion-time locals yields the drain of the whole batch: the local
accumulators do see every stat callback eventually. -/
theorem optImagesLoop_final (files pending : List ImageFile) (locals : Totals) :
    drainPending (optImagesLoop files pending locals).2
        (optImagesLoop files pending locals).1 =
      drainPending files (drainPending pending locals) := by
  induction files generalizing pending locals with
  | nil => simp [optImagesLoop, drainPending]
  | cons f rest ih =>
    simp only [optImagesLoop]
    rw [ih]
    simp [drainPending]

/-- The eventual local accumulators of an `optimizeImages` batch equal the
sum of all per-file contributions. -/
theorem optimizeImagesRun_finalLocals (files : List ImageFile) :
    (optimizeImagesRun files).finalLocals = imageBatchSum files := by
  show drainPending (optImagesLoop files [] Totals.zero).2
      (optImagesLoop files [] Totals.zero).1 = imageBatchSum files
  rw [optImagesLoop_final]
  simp [drainPending, imageBatchSum, List.foldl_map]

/-- C4 (counterexample): in the plain-copy variant a per-file stat error
aborts the batch: with two files and the first failing, only one file is
ever statted, nothing is copied, and the processor's promise rejects. -/
theorem claim4_copy_error_aborts_batch :
    (copyImagesRun [Except.error "EACCES: stat failed", Except.ok 50]).statted = 1 ∧
    (copyImagesRun [Except.error "EACCES: stat failed", Except.ok 50]).copied = 0 ∧
    (copyImagesRun [Except.error "EACCES: stat failed", Except.ok 50]).result =
      Except.error "EACCES: stat failed" :=
  ⟨rfl, rfl, rfl⟩

/-- `copyImages` on a batch whose first stat error follows a run of
successful files: the promise rejects with that error, exactly the
successful run plus the failing file were statted, and the totals added to
`compressionStats` are the contributions of the successful run. -/
theorem copyImagesRun_first_error (pre post : List (Except String Nat)) (e : String)
    (hpre : ∀ x ∈ pre, x.isOk = true) :
    (copyImagesRun (pre ++ Except.error e :: post)).result = Except.error e ∧
    (copyImagesRun (pre ++ Except.error e :: post)).statted = pre.length + 1 ∧
    (copyImagesRun (pre ++ Except.error e :: post)).copied = pre.length ∧
    (copyImagesRun (pre ++ Except.error e :: post)).totals =
      copyOkSum (pre.filterMap Except.toOption) := by
  induction pre with
  | nil => exact ⟨rfl, rfl, rfl, rfl⟩
  | cons x rest ih =>
    have hx : x.isOk = true := hpre x (by simp)
    cases x with
    | error e2 => simp [Except.isOk, Except.toBool] at hx
    | ok s =>
      obtain ⟨h1, h2, h3, h4⟩ := ih (fun y hy => hpre y (by simp [hy]))
      refine ⟨?_, ?_, ?_, ?_⟩
      · simpa [copyImagesRun] using h1
      · simp [copyImagesRun, h2]
      · simp [copyImagesRun, h3]
      · simp [copyImagesRun, h4, copyOkSum, Except.toOption]

/-- C4 (amended): in the optimizing variant a per-file stat error is
logged and contributes nothing while every file of the batch is still
processed and the promise resolves; in the plain-copy variant the error is
logged and that file's bytes are excluded, but the runner stops launching
further files and the batch promise rejects (the successful files
processed before the error are still counted). -/
theorem claim4_error_policy (files : List ImageFile)
    (pre post : List (Except String Nat)) (e : String)
    (hpre : ∀ x ∈ pre, x.isOk = true) :
    (optimizeImagesRun files).iterCallbacks = files.length ∧
    (optimizeImagesRun files).result = Except.ok () ∧
    (optimizeImagesRun files).finalLocals = imageBatchSum files ∧
    (copyImagesRun (pre ++ Except.error e :: post)).result = Except.error e ∧
    (copyImagesRun (pre ++ Except.error e :: post)).statted = pre.length + 1 ∧
    (copyImagesRun (pre ++ Except.error e :: post)).totals =
      copyOkSum (pre.filterMap Except.toOption) := by
  obtain ⟨h1, h2, _, h4⟩ := copyImagesRun_first_error pre post e hpre
  exact ⟨rfl, rfl, optimizeImagesRun_finalLocals files, h1, h2, h4⟩

/-- Witness for C4 (amended): a batch of two image files whose first stat
fails, and a copy batch of one good file followed by a failing one. -/
theorem claim4_error_policy_witness :
    (∀ x ∈ [Except.ok (ε := String) 10], x.isOk = true) ∧
    ((optimizeImagesRun [⟨Except.error "EPERM", 0⟩, ⟨Except.ok 7, 3⟩]).iterCallbacks =
        [⟨Except.error "EPERM", (0 : Nat)⟩,
          (⟨Except.ok 7, 3⟩ : ImageFile)].length ∧
      (optimizeImagesRun [⟨Except.error "EPERM", 0⟩, ⟨Except.ok 7, 3⟩]).result =
        Except.ok () ∧
      (optimizeImagesRun [⟨Except.error "EPERM", 0⟩, ⟨Except.ok 7, 3⟩]).finalLocals =
        imageBatchSum [⟨Except.error "EPERM", 0⟩, ⟨Except.ok 7, 3⟩] ∧
      (copyImagesRun ([Except.ok 10] ++ Except.error "ENOENT" :: [Except.ok 5])).result =
        Except.error "ENOENT" ∧
      (copyImagesRun ([Except.ok 10] ++ Except.error "ENOENT" :: [Except.ok 5])).statted =
        [Except.ok (ε := String) 10].length + 1 ∧
      (copyImagesRun ([Except.ok 10] ++ Except.error "ENOENT" :: [Except.ok 5])).totals =
        copyOkSum ([Except.ok (ε := String) 10].filterMap Except.toOption)) := by
  refine ⟨?_, claim4_error_policy _ _ _ _ ?_⟩ <;>
    intro x hx <;> simp only [List.mem_singleton] at hx <;> subst hx <;> rfl

/-! ## Claim C6: page-bundle compression -/

/-- C6: for a page manifest of two bundles with two member files each
(none ignored, all readable and non-empty, minification succeeding), the
script processor enqueues one job per bundle named after the last listed
file with `.min.js` appended, eventually writes exactly those two output
files, and `compressionStats.totalFiles` increases by 4. -/
theorem claim6_page_bundles (src dst n1 n2 a1 a2 b1 b2 c1 c2 c3 c4 m1 m2 : String)
    (fs : FileSystem) (minify : MinifyOracle)
    (hfa1 : fs (pathJoin src a1) = some c1) (h1 : 0 < c1.length)
    (hfa2 : fs (pathJoin src a2) = some c2) (h2 : 0 < c2.length)
    (hfb1 : fs (pathJoin src b1) = some c3) (h3 : 0 < c3.length)
    (hfb2 : fs (pathJoin src b2) = some c4) (h4 : 0 < c4.length)
    (hm1 : minify [(baseName a1, c1), (baseName a2, c2)] = some m1)
    (hm2 : minify [(baseName b1, c3), (baseName b2, c4)] = some m2) :
    phase1JobNames (optimizeJSPhase1 src dst [] [(n1, [a1, a2]), (n2, [b1, b2])] fs) =
      [parseName a2 ++ ".min.js", parseName b2 ++ ".min.js"] ∧
    phase1FilesDelta (optimizeJSPhase1 src dst [] [(n1, [a1, a2]), (n2, [b1, b2])] fs) =
      4 ∧
    (optimizeJSRun src dst [] [(n1, [a1, a2]), (n2, [b1, b2])] fs minify).writes =
      [pathJoin dst (parseName a2 ++ ".min.js"),
       pathJoin dst (parseName b2 ++ ".min.js")] := by
  have hphase : optimizeJSPhase1 src dst [] [(n1, [a1, a2]), (n2, [b1, b2])] fs =
      Except.ok ⟨[⟨parseName a2 ++ ".min.js", [(baseName a1, c1), (baseName a2, c2)]⟩,
                  ⟨parseName b2 ++ ".min.js", [(baseName b1, c3), (baseName b2, c4)]⟩],
                 4, c1.utf8ByteSize + c2.utf8ByteSize + (c3.utf8ByteSize + c4.utf8ByteSize)⟩ := by
    simp [optimizeJSPhase1, processGroup, prepareJSFile, List.foldlM,
      hfa1, hfa2, hfb1, hfb2, h1, h2, h3, h4, Except.map, Except.bind]
    rfl
  refine ⟨?_, ?_, ?_⟩
  · simp [phase1JobNames, hphase]
  · simp [phase1FilesDelta, hphase]
  · simp [optimizeJSRun, hphase, runJSJob, hm1, hm2]

/-- Witness for C6: a concrete two-bundle manifest over `demoFS` and
`demoMinify`. -/
theorem claim6_page_bundles_witness :
    phase1JobNames (optimizeJSPhase1 "./public/js" "./distrib/js" []
        [("index", ["common.js", "index.js"]), ("about", ["common.js", "about.js"])]
        demoFS) =
      [parseName "index.js" ++ ".min.js", parseName "about.js" ++ ".min.js"] ∧
    phase1FilesDelta (optimizeJSPhase1 "./public/js" "./distrib/js" []
        [("index", ["common.js", "index.js"]), ("about", ["common.js", "about.js"])]
        demoFS) = 4 ∧
    (optimizeJSRun "./public/js" "./distrib/js" []
        [("index", ["common.js", "index.js"]), ("about", ["common.js", "about.js"])]
        demoFS demoMinify).writes =
      [pathJoin "./distrib/js" (parseName "index.js" ++ ".min.js"),
       pathJoin "./distrib/js" (parseName "about.js" ++ ".min.js")] :=
  claim6_page_bundles "./public/js" "./distrib/js" "index" "about"
    "common.js" "index.js" "common.js" "about.js"
    "var a = 1;" "var b = 2;" "var a = 1;" "var c = 3;"
    "var a = 1;var b = 2;" "var a = 1;var c = 3;"
    demoFS demoMinify
    (by decide) (by decide) (by decide) (by decide)
    (by decide) (by decide) (by decide) (by decide)
    (by decide) (by decide)

/-! ## Claim C8: settlement of the `optimizeJS` promise -/

/-- C8 (counterexample): a bundle listing a file whose read throws makes
the `optimizeJS` promise reject — the synchronous `readFileSync` in
`prepareJSFile` (build.js line 477) is not wrapped in any handler, so the
exception escapes the promise executor. -/
theorem claim8_missing_file_rejects :
    optimizeJSPhase1 "./public/js" "./distrib/js" [] [("index", ["missing.js"])]
      missingFS =
      Except.error "ENOENT: no such file ./public/js/missing.js" :=
  rfl

/-- `prepareJSFile` succeeds whenever the file is ignored or readable. -/
theorem prepareJSFile_isOk (src : String) (ignore : List String) (fs : FileSystem)
    (file : String) (acc : PrepAcc)
    (h : baseName file ∉ ignore → (fs (pathJoin src file)).isSome = true) :
    (prepareJSFile src ignore fs file acc).isOk = true := by
  by_cases hig : baseName file ∈ ignore
  · simp [prepareJSFile, hig, Except.isOk, Except.toBool]
  · cases hfs : fs (pathJoin src file) with
    | none =>
        have hs := h hig
        rw [hfs] at hs
        simp at hs
    | some c =>
        by_cases hlen : 0 < c.length
        · simp [prepareJSFile, hig, hfs, hlen, Except.isOk, Except.toBool]
        · simp [prepareJSFile, hig, hfs, hlen, Except.isOk, Except.toBool]

/-- The read fold of one manifest group succeeds whenever every member
file is ignored or readable. -/
theorem foldlM_prepare_isOk (src : String) (ignore : List String) (fs : FileSystem)
    (files : List String) (acc : PrepAcc)
    (h : ∀ f ∈ files, baseName f ∉ ignore → (fs (pathJoin src f)).isSome = true) :
    (files.foldlM (fun a file => prepareJSFile src ignore fs file a) acc).isOk =
      true := by
  induction files generalizing acc with
  | nil => rfl
  | cons f rest ih =>
      have h1 := prepareJSFile_isOk src ignore fs f acc (h f (by simp))
      cases hp : prepareJSFile src ignore fs f acc with
      | error e => rw [hp] at h1; simp [Except.isOk, Except.toBool] at h1
      | ok a2 =>
          have h2 := ih a2 (fun g hg hig => h g (by simp [hg]) hig)
          rw [List.foldlM_cons, hp]
          exact h2

/-- `processGroup` succeeds on a non-empty group of ignored-or-readable
files. -/
theorem processGroup_isOk (src : String) (ignore : List String) (fs : FileSystem)
    (fileList : List String) (acc : JSPhase1Result) (hne : fileList ≠ [])
    (h : ∀ f ∈ fileList, baseName f ∉ ignore → (fs (pathJoin src f)).isSome = true) :
    (processGroup src ignore fs fileList acc).isOk = true := by
  simp only [processGroup]
  cases hg : fileList.getLast? with
  | none => exact absurd (List.getLast?_eq_none_iff.mp hg) hne
  | some lastFile =>
      have hfold := foldlM_prepare_isOk src ignore fs fileList {} h
      cases hf : fileList.foldlM
          (fun a file => prepareJSFile src ignore fs file a) ({} : PrepAcc) with
      | error e => rw [hf] at hfold; simp [Except.isOk, Except.toBool] at hfold
      | ok prep => simp [hf, Except.map, Except.isOk, Except.toBool]

/-- The whole synchronous phase succeeds whenever every group is non-empty
and every member file is ignored or readable. -/
theorem manifestFold_isOk (src : String) (ignore : List String) (fs : FileSystem)
    (manifest : List (String × List String)) (acc : JSPhase1Result)
    (h : ∀ g ∈ manifest, g.2 ≠ [] ∧
      ∀ f ∈ g.2, baseName f ∉ ignore → (fs (pathJoin src f)).isSome = true) :
    (manifest.foldlM (fun a g => processGroup src ignore fs g.2 a) acc).isOk =
      true := by
  induction manifest generalizing acc with
  | nil => rfl
  | cons g rest ih =>
      have h1 := processGroup_isOk src ignore fs g.2 acc (h g (by simp)).1
        (h g (by simp)).2
      cases hp : processGroup src ignore fs g.2 acc with
      | error e => rw [hp] at h1; simp [Except.isOk, Except.toBool] at h1
      | ok a2 =>
          have h2 := ih a2 (fun g2 hg2 => h g2 (by simp [hg2]))
          rw [List.foldlM_cons, hp]
          exact h2

/-- With an always-failing minify oracle no job writes anything and no
compressed bytes are counted. -/
theorem runJSJob_none_oracle (dst : String) (jobs : List JSJob) :
    (∀ j ∈ jobs, (runJSJob dst (fun _ => none) j).1 = []) ∧
    (jobs.map (Prod.snd ∘ runJSJob dst fun _ => none)).foldl (· + ·) 0 = 0 := by
  refine ⟨fun j _ => rfl, ?_⟩
  induction jobs with
  | nil => rfl
  | cons j rest ih => simpa [runJSJob] using ih

/-- C8 (amended): when every listed non-ignored source file is readable,
the `optimizeJS` promise resolves, and it settles identically no matter
what the minifier later does — settlement happens before minification and
the output writes, so it implies neither that the bundle outputs exist nor
that the compressed-byte statistics were updated, and minification
failures are only logged (no write, no compressed bytes, no rejection).
However, a listed file whose read throws rejects the promise. -/
theorem claim8_settlement (src dst : String) (ignore : List String)
    (manifest : List (String × List String)) (fs : FileSystem)
    (minifyA minifyB : MinifyOracle)
    (h : ∀ g ∈ manifest, g.2 ≠ [] ∧
      ∀ f ∈ g.2, baseName f ∉ ignore → (fs (pathJoin src f)).isSome = true) :
    (optimizeJSPhase1 src dst ignore manifest fs).isOk = true ∧
    (optimizeJSRun src dst ignore manifest fs minifyA).phase1 =
      (optimizeJSRun src dst ignore manifest fs minifyB).phase1 ∧
    (optimizeJSRun src dst ignore manifest fs (fun _ => none)).writes = [] ∧
    (optimizeJSRun src dst ignore manifest fs (fun _ => none)).compressedDelta =
      0 := by
  refine ⟨manifestFold_isOk src ignore fs manifest ⟨[], 0, 0⟩ h, ?_, ?_, ?_⟩
  · cases hp : optimizeJSPhase1 src dst ignore manifest fs <;>
      simp [optimizeJSRun, hp]
  · cases hp : optimizeJSPhase1 src dst ignore manifest fs with
    | error e => simp [optimizeJSRun, hp]
    | ok r =>
        simp [optimizeJSRun, hp]
        exact (runJSJob_none_oracle dst r.jobs).1
  · cases hp : optimizeJSPhase1 src dst ignore manifest fs with
    | error e => simp [optimizeJSRun, hp]
    | ok r =>
        simp [optimizeJSRun, hp]
        exact (runJSJob_none_oracle dst r.jobs).2

/-- Witness for C8 (amended) at a concrete one-bundle manifest. -/
theorem claim8_settlement_witness :
    (optimizeJSPhase1 "./public/js" "./distrib/js" [] [("index", ["index.js"])]
      demoFS).isOk = true ∧
    (optimizeJSRun "./public/js" "./distrib/js" [] [("index", ["index.js"])]
      demoFS demoMinify).phase1 =
      (optimizeJSRun "./public/js" "./distrib/js" [] [("index", ["index.js"])]
        demoFS (fun _ => none)).phase1 ∧
    (optimizeJSRun "./public/js" "./distrib/js" [] [("index", ["index.js"])]
      demoFS (fun _ => none)).writes = [] ∧
    (optimizeJSRun "./public/js" "./distrib/js" [] [("index", ["index.js"])]
      demoFS (fun _ => none)).compressedDelta = 0 :=
  claim8_settlement "./public/js" "./distrib/js" [] [("index", ["index.js"])]
    demoFS demoMinify (fun _ => none)
    (by
      intro g hg
      simp only [List.mem_singleton] at hg
      subst hg
      refine ⟨by simp, ?_⟩
      intro f hf hig
      simp only [List.mem_singleton] at hf
      subst hf
      decide)
